import Mathlib

/-!
Shallow embedding of `backend/agent/run.py` (the `run_agent` async generator) and proofs
about its streaming / termination control.

Modelling choices, all read off the source:
* A chunk (Fragment) is a Python dict; the fields `run_agent` reads are `type`, `status`,
  `message` and `content`.  `content` may hold an arbitrary Python value, modelled by
  `PyVal` (a string, a dict, or anything else).
* `json.loads` is an external library function; it is passed in as a parameter
  `jsonLoads : String → Option PyVal`, where `none` models a `JSONDecodeError`
  (caught at line 194 of the source).
* `thread_manager.run_thread` is external (`agentpress.thread_manager` is not part of
  this tree); each successive call's outcome is supplied as a `ThreadCall`: it either
  raises, returns a plain dict, or returns an async stream that yields a list of chunks
  and then either ends normally or raises.
* `check_billing_status` is external; its `has_credits` field is supplied as a Bool.
* The generator's observable behaviour is a trace of `Event`s (billing check performed,
  `run_thread` invoked, chunk yielded) together with an `Outcome`.  The thread-manager
  setup and tool registration (lines 67-128) perform no yields and are effect-free in
  this model, with one exception taken from the source: line 115 evaluates the global
  name `DataProvidersTool`, which is never imported or defined in `run.py`, so when
  `config.RAPID_API_KEY` is truthy a `NameError` is raised there and escapes the
  generator; this is the `Outcome.escaped` case.
* The `while continue_execution` loop is structural recursion over the supplied list of
  `ThreadCall` results; if the list is exhausted while the loop would start another
  attempt, the outcome is `Outcome.needsMore`.
-/

/-- A Python value as far as the `content` field handling is concerned: a string, a
dict (association list with unique keys), or any other value. -/
inductive PyVal where
  | str (s : String)
  | dict (entries : List (String × PyVal))
  | other

/-- A chunk dict: the four keys `run_agent` reads.  `none` models an absent key. -/
structure Chunk where
  type : Option String := none
  status : Option String := none
  message : Option String := none
  content : Option PyVal := none

/-- Python list-prefix test (helper for the substring test below). -/
def isPre : List Char → List Char → Bool
  | [], _ => true
  | _ :: _, [] => false
  | a :: as, b :: bs => a == b && isPre as bs

/-- Occurrence of `needle` as a contiguous subsequence of the second list. -/
def subSeq (needle : List Char) : List Char → Bool
  | [] => isPre needle []
  | c :: rest => isPre needle (c :: rest) || subSeq needle rest

/-- The Python substring operator: `pyIn sub s` models the expression `sub in s`. -/
def pyIn (sub s : String) : Bool := subSeq sub.data s.data

/-- Lines 185-192: scan assistant text for the closing tags, in the source's order
ask, then complete, then web-browser-takeover; `none` when no tag occurs (the outer
`if` at line 185 is false and `last_tool_call` is left unchanged). -/
def detectXmlTool (text : String) : Option String :=
  if pyIn "</ask>" text then some "ask"
  else if pyIn "</complete>" text then some "complete"
  else if pyIn "</web-browser-takeover>" text then some "web-browser-takeover"
  else none

/-- Python `dict.get(key, dflt)` on an association list. -/
def pyGetDefault (entries : List (String × PyVal)) (key : String) (dflt : PyVal) : PyVal :=
  match entries.find? (fun p => p.1 == key) with
  | some p => p.2
  | none => dflt

/-- Lines 181-192 applied to the decoded content value: a non-dict value makes the
`.get` call raise `AttributeError`, caught by the handler at line 197 (scan skipped);
a non-string nested text fails the `isinstance` check at line 183 (scan skipped);
otherwise the nested text is scanned for closing tags. -/
def scanDecoded (j : PyVal) : Option String :=
  match j with
  | .dict es =>
      match pyGetDefault es "content" (.str "") with
      | .str text => detectXmlTool text
      | _ => none
  | _ => none

/-- Lines 173-198: the marker-detection block for one chunk.  Returns the value
assigned to `last_tool_call` for this chunk, or `none` when the assignment at line 192
is not reached (wrong chunk type, absent content key, decode failure, or no tag). -/
def chunkMarkerScan (jsonLoads : String → Option PyVal) (c : Chunk) : Option String :=
  if c.type == some "assistant" && c.content.isSome then
    match c.content with
    | some (.str s) =>
        match jsonLoads s with
        | some j => scanDecoded j
        | none => none
    | some j => scanDecoded j
    | none => none
  else none

/-- Line 166: a chunk is an in-stream error chunk when its `type` is `status` and its
`status` is `error`. -/
def isErrorChunk (c : Chunk) : Bool :=
  c.type == some "status" && c.status == some "error"

/-- The per-attempt mutable state: `error_detected` (line 162) and `last_tool_call`
(line 160). -/
structure LoopState where
  errorDetected : Bool
  lastToolCall : Option String

/-- The state both flags start an attempt with (lines 160, 162). -/
def initState : LoopState := { errorDetected := false, lastToolCall := none }

/-- Lines 164-199: the body of the `async for` for one chunk.  Returns the updated
state together with the chunks yielded while handling this chunk: an error chunk is
yielded at line 169 and `continue` skips the rest of the body; any other chunk runs
marker detection and is yielded at line 199.  Either way exactly the chunk itself is
yielded. -/
def processChunk (jsonLoads : String → Option PyVal) (st : LoopState) (c : Chunk) :
    LoopState × List Chunk :=
  if isErrorChunk c then
    ({ st with errorDetected := true }, [c])
  else
    match chunkMarkerScan jsonLoads c with
    | some t => ({ st with lastToolCall := some t }, [c])
    | none => (st, [c])

/-- The whole `async for` over a list of chunks read from the stream. -/
def processChunks (jsonLoads : String → Option PyVal) (st : LoopState) :
    List Chunk → LoopState × List Chunk
  | [] => (st, [])
  | c :: cs =>
      let r := processChunk jsonLoads st c
      let r2 := processChunks jsonLoads r.1 cs
      (r2.1, r.2 ++ r2.2)

/-- What `thread_manager.run_thread` returned: a plain dict (checked at line 155), or
an async stream that yields `chunks` and then either ends (`streamExc = none`) or
raises an exception with message `e` (`streamExc = some e`). -/
inductive ThreadResponse where
  | dictResp (d : Chunk)
  | streamResp (chunks : List Chunk) (streamExc : Option String)

/-- The outcome of one call to `thread_manager.run_thread`: it returns a response or
raises. -/
inductive ThreadCall where
  | returns (r : ThreadResponse)
  | raises (msg : String)

/-- Observable events of the generator. -/
inductive Event where
  | billingCheck
  | threadStart
  | yieldC (c : Chunk)

/-- Which exit of the loop was taken. -/
inductive StopReason where
  | billingNoCredits
  | errorResponse
  | errorDetected
  | markerStop
  | streamException
  | threadException

/-- How a run ends: the generator returned (with the exit that was taken), the supplied
list of `run_thread` outcomes ran out while the loop would continue, or an exception
escaped the generator. -/
inductive Outcome where
  | stopped (r : StopReason)
  | needsMore
  | escaped (msg : String)

/-- Lines 60-64, 212-216, 224-228: the synthesized status/error chunk. -/
def statusErrorChunk (msg : String) : Chunk :=
  { type := some "status", status := some "error", message := some msg }

/-- Line 205: `last_tool_call in [ask, complete, web-browser-takeover]`; Python
membership of an `Optional[str]` in that three-element list (`None` is never in it). -/
def inStopList : Option String → Bool
  | some t => t == "ask" || t == "complete" || t == "web-browser-takeover"
  | none => false

/-- Lines 131-230: the `while continue_execution` loop, driven by the successive
results of `thread_manager.run_thread`.  A dict response without an error status falls
through to the `async for`, which raises a `TypeError` immediately (a dict is not an
async iterable), caught by the inner handler at line 208. -/
def loopRun (jsonLoads : String → Option PyVal) : List ThreadCall → List Event × Outcome
  | [] => ([], .needsMore)
  | tc :: rest =>
      match tc with
      | .raises msg =>
          ([.threadStart, .yieldC (statusErrorChunk ("Error running thread: " ++ msg))],
           .stopped .threadException)
      | .returns (.dictResp d) =>
          if d.status == some "error" then
            ([.threadStart, .yieldC d], .stopped .errorResponse)
          else
            ([.threadStart,
              .yieldC (statusErrorChunk
                "Error during response streaming: TypeError: dict is not an async iterable")],
             .stopped .streamException)
      | .returns (.streamResp chunks streamExc) =>
          let pr := processChunks jsonLoads initState chunks
          let ys := pr.2.map Event.yieldC
          match streamExc with
          | some e =>
              (.threadStart :: ys ++
                 [.yieldC (statusErrorChunk ("Error during response streaming: " ++ e))],
               .stopped .streamException)
          | none =>
              if pr.1.errorDetected then
                (.threadStart :: ys, .stopped .errorDetected)
              else if inStopList pr.1.lastToolCall then
                (.threadStart :: ys, .stopped .markerStop)
              else
                let r := loopRun jsonLoads rest
                (.threadStart :: ys ++ r.1, r.2)

/-- Lines 60-64: the billing-failure chunk, message verbatim from the source. -/
def billingErrorChunk : Chunk :=
  statusErrorChunk "You don\x27t have enough credits to run the agent. Please upgrade your plan."

/-- Line 115 evaluates the global name `DataProvidersTool`, which is never imported or
defined in `run.py`; Python raises this `NameError`. -/
def nameErrorMsg : String :=
  "NameError: name \x27DataProvidersTool\x27 is not defined"

/-- The external inputs of one run: the `user_id` argument, the `has_credits` field
returned by `check_billing_status`, the truthiness of `config.RAPID_API_KEY`, and the
successive outcomes of `thread_manager.run_thread`. -/
structure RunEnv where
  userId : Option String
  hasCredits : Bool
  rapidApiKey : Bool
  attempts : List ThreadCall

/-- Python truthiness of the `Optional[str]` argument `user_id` (line 57): `None` and
the empty string are falsy. -/
def truthyStr : Option String → Bool
  | some s => !(s == "")
  | none => false

/-- Lines 37-230: `run_agent` as a trace-producing function.  Billing gate first
(lines 56-65); then the tool-registration block, whose only observable effect is the
`NameError` at line 115 when `config.RAPID_API_KEY` is truthy; then the attempt loop. -/
def runAgent (jsonLoads : String → Option PyVal) (env : RunEnv) : List Event × Outcome :=
  if truthyStr env.userId then
    if !env.hasCredits then
      ([.billingCheck, .yieldC billingErrorChunk], .stopped .billingNoCredits)
    else if env.rapidApiKey then
      ([.billingCheck], .escaped nameErrorMsg)
    else
      let r := loopRun jsonLoads env.attempts
      (.billingCheck :: r.1, r.2)
  else if env.rapidApiKey then
    ([], .escaped nameErrorMsg)
  else
    loopRun jsonLoads env.attempts

/-- The chunks yielded to the caller, read off an event trace. -/
def yieldedChunks : List Event → List Chunk
  | [] => []
  | .yieldC c :: rest => c :: yieldedChunks rest
  | _ :: rest => yieldedChunks rest

/-- Number of `run_thread` invocations (Model Session starts) in a trace. -/
def countStarts : List Event → Nat
  | [] => 0
  | .threadStart :: rest => countStarts rest + 1
  | _ :: rest => countStarts rest

/-- Number of billing-check invocations in a trace. -/
def countBillingChecks : List Event → Nat
  | [] => 0
  | .billingCheck :: rest => countBillingChecks rest + 1
  | _ :: rest => countBillingChecks rest

/-- A `run_thread` outcome that streams `cs` and ends normally. -/
def normalStream (cs : List Chunk) : ThreadCall := .returns (.streamResp cs none)

/-- An assistant chunk whose content is already a decoded dict with nested text `t`. -/
def assistantChunkObj (t : String) : Chunk :=
  { type := some "assistant", content := some (.dict [("content", .str t)]) }

/-- An assistant chunk whose content is a raw (undecoded) string. -/
def assistantChunkRaw (s : String) : Chunk :=
  { type := some "assistant", content := some (.str s) }

/-- A concrete decode oracle that fails on every string. -/
def jlNone : String → Option PyVal := fun _ => none

/-! Helper lemmas about the per-chunk and per-attempt processing. -/

theorem processChunk_snd (jl : String → Option PyVal) (st : LoopState) (c : Chunk) :
    (processChunk jl st c).2 = [c] := by
  unfold processChunk
  split
  · rfl
  · split <;> rfl

theorem processChunks_snd (jl : String → Option PyVal) (st : LoopState) (cs : List Chunk) :
    (processChunks jl st cs).2 = cs := by
  induction cs generalizing st with
  | nil => rfl
  | cons c cs ih => simp [processChunks, processChunk_snd, ih]

theorem processChunk_fst_errorDetected (jl : String → Option PyVal) (st : LoopState)
    (c : Chunk) :
    (processChunk jl st c).1.errorDetected = (st.errorDetected || isErrorChunk c) := by
  by_cases h : isErrorChunk c = true
  · simp [processChunk, h]
  · rw [Bool.not_eq_true] at h
    cases hs : chunkMarkerScan jl c <;> simp [processChunk, h, hs]

theorem processChunks_fst_errorDetected (jl : String → Option PyVal) (st : LoopState)
    (cs : List Chunk) :
    (processChunks jl st cs).1.errorDetected = (st.errorDetected || cs.any isErrorChunk) := by
  induction cs generalizing st with
  | nil => simp [processChunks]
  | cons c cs ih =>
      simp [processChunks, ih, processChunk_fst_errorDetected, Bool.or_assoc]

theorem errorChunk_scan_none (jl : String → Option PyVal) (c : Chunk)
    (h : isErrorChunk c = true) : chunkMarkerScan jl c = none := by
  unfold isErrorChunk at h
  rw [Bool.and_eq_true, beq_iff_eq, beq_iff_eq] at h
  unfold chunkMarkerScan
  rw [h.1]
  rfl

/-- The update `last_tool_call` receives from one chunk (line 192, or no change). -/
def updLtc (jl : String → Option PyVal) (acc : Option String) (c : Chunk) : Option String :=
  match chunkMarkerScan jl c with
  | some t => some t
  | none => acc

theorem processChunk_fst_lastToolCall (jl : String → Option PyVal) (st : LoopState)
    (c : Chunk) :
    (processChunk jl st c).1.lastToolCall = updLtc jl st.lastToolCall c := by
  by_cases h : isErrorChunk c = true
  · simp [processChunk, h, updLtc, errorChunk_scan_none jl c h]
  · rw [Bool.not_eq_true] at h
    cases hs : chunkMarkerScan jl c <;> simp [processChunk, h, hs, updLtc]

theorem processChunks_fst_lastToolCall (jl : String → Option PyVal) (st : LoopState)
    (cs : List Chunk) :
    (processChunks jl st cs).1.lastToolCall = cs.foldl (updLtc jl) st.lastToolCall := by
  induction cs generalizing st with
  | nil => simp [processChunks]
  | cons c cs ih =>
      simp [processChunks, List.foldl_cons, ih, processChunk_fst_lastToolCall]

theorem updLtc_ne_none (jl : String → Option PyVal) (a : Option String) (c : Chunk)
    (h : a ≠ none) : updLtc jl a c ≠ none := by
  unfold updLtc
  split
  · simp
  · exact h

theorem foldl_updLtc_ne_none (jl : String → Option PyVal) (l : List Chunk)
    (a : Option String) (h : a ≠ none) : l.foldl (updLtc jl) a ≠ none := by
  induction l generalizing a with
  | nil => exact h
  | cons c l ih => exact ih (updLtc jl a c) (updLtc_ne_none jl a c h)

theorem foldl_updLtc_none_iff (jl : String → Option PyVal) (l : List Chunk) :
    l.foldl (updLtc jl) none = none ↔ ∀ c ∈ l, chunkMarkerScan jl c = none := by
  induction l with
  | nil => simp
  | cons c l ih =>
      rw [List.foldl_cons]
      cases hs : chunkMarkerScan jl c with
      | none =>
          have hu : updLtc jl none c = none := by simp [updLtc, hs]
          rw [hu, ih]
          simp [hs]
      | some t =>
          have hu : updLtc jl none c = some t := by simp [updLtc, hs]
          rw [hu]
          constructor
          · intro hh
            exact absurd hh (foldl_updLtc_ne_none jl l (some t) (by simp))
          · intro hh
            have := hh c (by simp)
            rw [hs] at this
            exact absurd this (by simp)

theorem detect_stopList (t : String) :
    detectXmlTool t = none ∨ inStopList (detectXmlTool t) = true := by
  unfold detectXmlTool
  split
  · exact Or.inr rfl
  · split
    · exact Or.inr rfl
    · split
      · exact Or.inr rfl
      · exact Or.inl rfl

theorem scanDecoded_stopList (j : PyVal) :
    scanDecoded j = none ∨ inStopList (scanDecoded j) = true := by
  unfold scanDecoded
  split
  · split
    · exact detect_stopList _
    · exact Or.inl rfl
  · exact Or.inl rfl

theorem scan_stopList (jl : String → Option PyVal) (c : Chunk) :
    chunkMarkerScan jl c = none ∨ inStopList (chunkMarkerScan jl c) = true := by
  unfold chunkMarkerScan
  split
  · split
    · split
      · exact scanDecoded_stopList _
      · exact Or.inl rfl
    · exact scanDecoded_stopList _
    · exact Or.inl rfl
  · exact Or.inl rfl

theorem foldl_updLtc_stopList (jl : String → Option PyVal) (l : List Chunk)
    (a : Option String) (h : a = none ∨ inStopList a = true) :
    l.foldl (updLtc jl) a = none ∨ inStopList (l.foldl (updLtc jl) a) = true := by
  induction l generalizing a with
  | nil => exact h
  | cons c l ih =>
      refine ih (updLtc jl a c) ?_
      unfold updLtc
      cases hs : chunkMarkerScan jl c with
      | none => exact h
      | some t =>
          rcases scan_stopList jl c with h2 | h2
          · rw [hs] at h2; exact absurd h2 (by simp)
          · rw [hs] at h2; exact Or.inr h2

theorem ltc_stopList (jl : String → Option PyVal) (cs : List Chunk) :
    (processChunks jl initState cs).1.lastToolCall = none ∨
      inStopList (processChunks jl initState cs).1.lastToolCall = true := by
  rw [processChunks_fst_lastToolCall]
  exact foldl_updLtc_stopList jl cs none (Or.inl rfl)

/-! Loop-level lemmas: one unfolding of the attempt loop for each kind of attempt. -/

theorem loopRun_normal_error (jl : String → Option PyVal) (cs : List Chunk)
    (rest : List ThreadCall)
    (h : (processChunks jl initState cs).1.errorDetected = true) :
    loopRun jl (normalStream cs :: rest)
      = (.threadStart :: cs.map Event.yieldC, .stopped .errorDetected) := by
  simp [loopRun, normalStream, processChunks_snd, h]

theorem loopRun_normal_marker (jl : String → Option PyVal) (cs : List Chunk)
    (rest : List ThreadCall)
    (h1 : (processChunks jl initState cs).1.errorDetected = false)
    (h2 : inStopList (processChunks jl initState cs).1.lastToolCall = true) :
    loopRun jl (normalStream cs :: rest)
      = (.threadStart :: cs.map Event.yieldC, .stopped .markerStop) := by
  simp [loopRun, normalStream, processChunks_snd, h1, h2]

theorem loopRun_normal_cont (jl : String → Option PyVal) (cs : List Chunk)
    (rest : List ThreadCall)
    (h1 : (processChunks jl initState cs).1.errorDetected = false)
    (h2 : inStopList (processChunks jl initState cs).1.lastToolCall = false) :
    loopRun jl (normalStream cs :: rest)
      = (.threadStart :: (cs.map Event.yieldC ++ (loopRun jl rest).1), (loopRun jl rest).2) := by
  simp [loopRun, normalStream, processChunks_snd, h1, h2]

theorem loopRun_streamExc (jl : String → Option PyVal) (cs : List Chunk) (e : String)
    (rest : List ThreadCall) :
    loopRun jl (.returns (.streamResp cs (some e)) :: rest)
      = (.threadStart :: (cs.map Event.yieldC ++
           [.yieldC (statusErrorChunk ("Error during response streaming: " ++ e))]),
         .stopped .streamException) := by
  simp [loopRun, processChunks_snd]

theorem runAgent_noUser (jl : String → Option PyVal) (hc : Bool) (atts : List ThreadCall) :
    runAgent jl { userId := none, hasCredits := hc, rapidApiKey := false, attempts := atts }
      = loopRun jl atts := rfl

/-! Trace-observation lemmas. -/

theorem yieldedChunks_append (a b : List Event) :
    yieldedChunks (a ++ b) = yieldedChunks a ++ yieldedChunks b := by
  induction a with
  | nil => rfl
  | cons e a ih => cases e <;> simp [yieldedChunks, ih]

theorem yieldedChunks_map_yieldC (cs : List Chunk) :
    yieldedChunks (cs.map Event.yieldC) = cs := by
  induction cs with
  | nil => rfl
  | cons c cs ih => simp [yieldedChunks, ih]

theorem countStarts_append (a b : List Event) :
    countStarts (a ++ b) = countStarts a + countStarts b := by
  induction a with
  | nil => simp [countStarts]
  | cons e a ih =>
      cases e with
      | billingCheck => simp [countStarts, ih]
      | threadStart => simp [countStarts, ih]; omega
      | yieldC c => simp [countStarts, ih]

theorem countStarts_map_yieldC (cs : List Chunk) :
    countStarts (cs.map Event.yieldC) = 0 := by
  induction cs with
  | nil => rfl
  | cons c cs ih => simp [countStarts, ih]

theorem countBillingChecks_append (a b : List Event) :
    countBillingChecks (a ++ b) = countBillingChecks a + countBillingChecks b := by
  induction a with
  | nil => simp [countBillingChecks]
  | cons e a ih =>
      cases e with
      | billingCheck => simp [countBillingChecks, ih]; omega
      | threadStart => simp [countBillingChecks, ih]
      | yieldC c => simp [countBillingChecks, ih]

theorem countBillingChecks_map_yieldC (cs : List Chunk) :
    countBillingChecks (cs.map Event.yieldC) = 0 := by
  induction cs with
  | nil => rfl
  | cons c cs ih => simp [countBillingChecks, ih]

theorem loopRun_no_billingChecks (jl : String → Option PyVal) (atts : List ThreadCall) :
    countBillingChecks (loopRun jl atts).1 = 0 := by
  induction atts with
  | nil => rfl
  | cons tc rest ih =>
      match tc with
      | .raises msg => rfl
      | .returns (.dictResp d) =>
          by_cases h : (d.status == some "error") = true
          · simp [loopRun, h, countBillingChecks]
          · rw [Bool.not_eq_true] at h
            simp [loopRun, h, countBillingChecks]
      | .returns (.streamResp cs streamExc) =>
          match streamExc with
          | some e =>
              rw [loopRun_streamExc]
              simp [countBillingChecks, countBillingChecks_append,
                    countBillingChecks_map_yieldC]
          | none =>
              show countBillingChecks (loopRun jl (normalStream cs :: rest)).1 = 0
              by_cases h1 : (processChunks jl initState cs).1.errorDetected = true
              · rw [loopRun_normal_error jl cs rest h1]
                simp [countBillingChecks, countBillingChecks_map_yieldC]
              · rw [Bool.not_eq_true] at h1
                by_cases h2 : inStopList (processChunks jl initState cs).1.lastToolCall = true
                · rw [loopRun_normal_marker jl cs rest h1 h2]
                  simp [countBillingChecks, countBillingChecks_map_yieldC]
                · rw [Bool.not_eq_true] at h2
                  rw [loopRun_normal_cont jl cs rest h1 h2]
                  simp [countBillingChecks, countBillingChecks_append,
                        countBillingChecks_map_yieldC, ih]

theorem loopRun_cons_starts (jl : String → Option PyVal) (tc : ThreadCall)
    (rest : List ThreadCall) : 1 ≤ countStarts (loopRun jl (tc :: rest)).1 := by
  match tc with
  | .raises msg => simp [loopRun, countStarts]
  | .returns (.dictResp d) =>
      by_cases h : (d.status == some "error") = true
      · simp [loopRun, h, countStarts]
      · rw [Bool.not_eq_true] at h
        simp [loopRun, h, countStarts]
  | .returns (.streamResp cs streamExc) =>
      match streamExc with
      | some e =>
          rw [loopRun_streamExc]
          simp [countStarts]
      | none =>
          show 1 ≤ countStarts (loopRun jl (normalStream cs :: rest)).1
          by_cases h1 : (processChunks jl initState cs).1.errorDetected = true
          · rw [loopRun_normal_error jl cs rest h1]
            simp [countStarts]
          · rw [Bool.not_eq_true] at h1
            by_cases h2 : inStopList (processChunks jl initState cs).1.lastToolCall = true
            · rw [loopRun_normal_marker jl cs rest h1 h2]
              simp [countStarts]
            · rw [Bool.not_eq_true] at h2
              rw [loopRun_normal_cont jl cs rest h1 h2]
              simp [countStarts]

/-! The loop forwards exactly the concatenation of the attempt streams (helper for C2). -/

theorem loopRun_normal_join (jl : String → Option PyVal) (css : List (List Chunk)) :
    yieldedChunks (loopRun jl (css.map normalStream)).1
      = (css.take (countStarts (loopRun jl (css.map normalStream)).1)).flatten := by
  induction css with
  | nil => rfl
  | cons cs rest ih =>
      rw [List.map_cons]
      by_cases h1 : (processChunks jl initState cs).1.errorDetected = true
      · rw [loopRun_normal_error jl cs _ h1]
        simp [yieldedChunks, countStarts, yieldedChunks_map_yieldC, countStarts_map_yieldC,
              List.take_succ_cons, List.flatten]
      · rw [Bool.not_eq_true] at h1
        by_cases h2 : inStopList (processChunks jl initState cs).1.lastToolCall = true
        · rw [loopRun_normal_marker jl cs _ h1 h2]
          simp [yieldedChunks, countStarts, yieldedChunks_map_yieldC, countStarts_map_yieldC,
                List.take_succ_cons, List.flatten]
        · rw [Bool.not_eq_true] at h2
          rw [loopRun_normal_cont jl cs _ h1 h2]
          simp [yieldedChunks, countStarts, yieldedChunks_append, countStarts_append,
                yieldedChunks_map_yieldC, countStarts_map_yieldC, List.take_succ_cons,
                List.flatten, ih]

/-- C1: the claim says no exception ever escapes `run_agent` and every failure mode is
translated into in-band status/error chunks.  The code violates this: with
`config.RAPID_API_KEY` truthy, line 115 evaluates the global name `DataProvidersTool`,
which is never imported or defined in `run.py`, so a `NameError` escapes the generator
before any attempt (first conjunct, evaluated at a concrete run).  The mid-stream part
of the claim does hold: when the stream raises after yielding `cs`, the caller gets the
read chunks followed by exactly one synthesized status/error chunk as the last item,
and the sequence ends (second conjunct). -/
theorem C1_exception_escape_and_containment :
    runAgent jlNone (RunEnv.mk none true true []) = ([], .escaped nameErrorMsg)
    ∧ ∀ (jl : String → Option PyVal) (cs : List Chunk) (e : String) (rest : List ThreadCall),
        runAgent jl (RunEnv.mk none true false (.returns (.streamResp cs (some e)) :: rest))
          = (.threadStart :: (cs.map Event.yieldC ++
               [.yieldC (statusErrorChunk ("Error during response streaming: " ++ e))]),
             .stopped .streamException) := by
  constructor
  · rfl
  · intro jl cs e rest
    rw [runAgent_noUser]
    exact loopRun_streamExc jl cs e rest

/-- C2: every chunk read by the loop is forwarded exactly once, in order (first
conjunct, over any attempt state and any chunk list); and for a run whose attempts all
stream normally, the chunks delivered to the caller are exactly the in-order
concatenation of the streams of the attempts that were started (second conjunct). -/
theorem C2_exact_forwarding :
    (∀ (jl : String → Option PyVal) (st : LoopState) (cs : List Chunk),
        (processChunks jl st cs).2 = cs)
    ∧ ∀ (jl : String → Option PyVal) (hc : Bool) (css : List (List Chunk)),
        yieldedChunks (runAgent jl (RunEnv.mk none hc false (css.map normalStream))).1
          = (css.take
               (countStarts (runAgent jl (RunEnv.mk none hc false (css.map normalStream))).1)
             ).flatten := by
  constructor
  · exact processChunks_snd
  · intro jl hc css
    rw [runAgent_noUser]
    exact loopRun_normal_join jl css

/-- C3: when an in-stream error chunk occurs at any position of an attempt's stream,
the whole stream is still drained and forwarded (all chunks before and after the error
appear in the trace), no further attempt is started (a single threadStart event, with
further attempt results available in `rest`), and the stop is attributed to the
detected error, not to a termination marker, whatever markers the other chunks hold. -/
theorem C3_error_drains_then_stops (jl : String → Option PyVal) (pre post : List Chunk)
    (e : Chunk) (rest : List ThreadCall) (h : isErrorChunk e = true) :
    runAgent jl (RunEnv.mk none true false (normalStream (pre ++ e :: post) :: rest))
      = (.threadStart :: (pre ++ e :: post).map Event.yieldC,
         .stopped .errorDetected) := by
  rw [runAgent_noUser]
  apply loopRun_normal_error
  rw [processChunks_fst_errorDetected]
  simp [initState, h]

theorem C3_error_drains_then_stops_witness :
    runAgent jlNone (RunEnv.mk none true false
        [normalStream [statusErrorChunk "boom", assistantChunkObj "t</complete>"],
         normalStream []])
      = ([.threadStart, .yieldC (statusErrorChunk "boom"),
          .yieldC (assistantChunkObj "t</complete>")],
         .stopped .errorDetected) :=
  C3_error_drains_then_stops jlNone [] [assistantChunkObj "t</complete>"]
    (statusErrorChunk "boom") [normalStream []] (by decide)

/-- C5: the billing check runs at most once per run (first conjunct, any environment),
and when the caller is checked and has no credits the run consists of exactly one
yielded chunk, the status/error billing chunk, with zero Model Session starts and an
immediate stop (second conjunct). -/
theorem C5_billing_gate (jl : String → Option PyVal) (env : RunEnv) :
    countBillingChecks (runAgent jl env).1 ≤ 1
    ∧ (truthyStr env.userId = true → env.hasCredits = false →
        runAgent jl env
          = ([.billingCheck, .yieldC billingErrorChunk], .stopped .billingNoCredits)) := by
  constructor
  · unfold runAgent
    split
    · split
      · simp [countBillingChecks]
      · split
        · simp [countBillingChecks]
        · simp [countBillingChecks, loopRun_no_billingChecks]
    · split
      · simp [countBillingChecks]
      · simp [loopRun_no_billingChecks]
  · intro h1 h2
    simp [runAgent, h1, h2]

theorem C5_billing_gate_witness :
    countBillingChecks (runAgent jlNone (RunEnv.mk (some "u") false false [])).1 ≤ 1
    ∧ runAgent jlNone (RunEnv.mk (some "u") false false [])
        = ([.billingCheck, .yieldC billingErrorChunk], .stopped .billingNoCredits) :=
  ⟨(C5_billing_gate jlNone (RunEnv.mk (some "u") false false [])).1,
   (C5_billing_gate jlNone (RunEnv.mk (some "u") false false [])).2 (by decide) rfl⟩

/-- C7: a Model Session start failure stops the run with no retry: if `run_thread`
returns an immediate error dict, that dict is forwarded as the only chunk and the loop
stops (first conjunct); if `run_thread` raises, exactly one synthesized status/error
chunk is forwarded and the loop stops (second conjunct).  In both cases there is a
single threadStart event although further attempt results were available. -/
theorem C7_start_failure_stops (jl : String → Option PyVal) (d : Chunk) (msg : String)
    (rest rest2 : List ThreadCall) :
    (d.status = some "error" →
        runAgent jl (RunEnv.mk none true false (.returns (.dictResp d) :: rest))
          = ([.threadStart, .yieldC d], .stopped .errorResponse))
    ∧ runAgent jl (RunEnv.mk none true false (.raises msg :: rest2))
        = ([.threadStart, .yieldC (statusErrorChunk ("Error running thread: " ++ msg))],
           .stopped .threadException) := by
  constructor
  · intro h
    rw [runAgent_noUser]
    simp [loopRun, h]
  · rw [runAgent_noUser]
    rfl

theorem C7_start_failure_stops_witness :
    runAgent jlNone (RunEnv.mk none true false
        [.returns (.dictResp (statusErrorChunk "model not found")), normalStream []])
      = ([.threadStart, .yieldC (statusErrorChunk "model not found")],
         .stopped .errorResponse) :=
  (C7_start_failure_stops jlNone (statusErrorChunk "model not found") "x"
      [normalStream []] []).1 rfl

/-! Bridge between the final `last_tool_call` and the per-chunk scans (helpers for C4, C9). -/

theorem ltc_none_iff (jl : String → Option PyVal) (cs : List Chunk) :
    (processChunks jl initState cs).1.lastToolCall = none ↔
      ∀ c ∈ cs, chunkMarkerScan jl c = none := by
  rw [processChunks_fst_lastToolCall]
  exact foldl_updLtc_none_iff jl cs

theorem foldl_updLtc_skip (jl : String → Option PyVal) (l : List Chunk) (a : Option String)
    (h : ∀ x ∈ l, chunkMarkerScan jl x = none) : l.foldl (updLtc jl) a = a := by
  induction l generalizing a with
  | nil => rfl
  | cons c l ih =>
      rw [List.foldl_cons]
      have hc : updLtc jl a c = a := by unfold updLtc; rw [h c (by simp)]
      rw [hc]
      exact ih a (fun x hx => h x (by simp [hx]))

/-- C4: after an attempt whose stream was drained with no error chunk: if some chunk's
marker scan fired (its decoded assistant text held a closing termination tag), the run
stops after that attempt with no further attempt, even though continue_execution was
true beforehand (first conjunct); if no scan fired, the loop proceeds to the remaining
attempts (second conjunct), and in particular starts at least one further Model Session
when another attempt result is available (third conjunct). -/
theorem C4_marker_stop_and_auto_continue (jl : String → Option PyVal) (cs : List Chunk)
    (rest : List ThreadCall) (hne : cs.any isErrorChunk = false) :
    ((∃ c ∈ cs, chunkMarkerScan jl c ≠ none) →
        runAgent jl (RunEnv.mk none true false (normalStream cs :: rest))
          = (.threadStart :: cs.map Event.yieldC, .stopped .markerStop))
    ∧ ((∀ c ∈ cs, chunkMarkerScan jl c = none) →
        runAgent jl (RunEnv.mk none true false (normalStream cs :: rest))
          = (.threadStart :: (cs.map Event.yieldC ++ (loopRun jl rest).1),
             (loopRun jl rest).2))
    ∧ ((∀ c ∈ cs, chunkMarkerScan jl c = none) → ∀ (tc : ThreadCall) (rest2 : List ThreadCall),
        2 ≤ countStarts (runAgent jl (RunEnv.mk none true false
              (normalStream cs :: tc :: rest2))).1) := by
  have herr : (processChunks jl initState cs).1.errorDetected = false := by
    rw [processChunks_fst_errorDetected]
    simp [initState, hne]
  refine ⟨?_, ?_, ?_⟩
  · rintro ⟨c, hc, hcn⟩
    have hnn : (processChunks jl initState cs).1.lastToolCall ≠ none := by
      intro hn
      exact hcn ((ltc_none_iff jl cs).1 hn c hc)
    rcases ltc_stopList jl cs with hl | hl
    · exact absurd hl hnn
    · rw [runAgent_noUser]
      exact loopRun_normal_marker jl cs rest herr hl
  · intro hall
    have hn : (processChunks jl initState cs).1.lastToolCall = none :=
      (ltc_none_iff jl cs).2 hall
    have h2 : inStopList (processChunks jl initState cs).1.lastToolCall = false := by
      rw [hn]; rfl
    rw [runAgent_noUser]
    exact loopRun_normal_cont jl cs rest herr h2
  · intro hall tc rest2
    have hn : (processChunks jl initState cs).1.lastToolCall = none :=
      (ltc_none_iff jl cs).2 hall
    have h2 : inStopList (processChunks jl initState cs).1.lastToolCall = false := by
      rw [hn]; rfl
    rw [runAgent_noUser, loopRun_normal_cont jl cs (tc :: rest2) herr h2]
    have hs := loopRun_cons_starts jl tc rest2
    simp [countStarts, countStarts_append, countStarts_map_yieldC]
    omega

theorem C4_marker_stop_and_auto_continue_witness :
    (runAgent jlNone (RunEnv.mk none true false
        [normalStream [assistantChunkObj "x</complete>"]])
      = ([.threadStart, .yieldC (assistantChunkObj "x</complete>")], .stopped .markerStop))
    ∧ 2 ≤ countStarts (runAgent jlNone (RunEnv.mk none true false
        [normalStream [assistantChunkObj "plain text"], normalStream []])).1 :=
  ⟨(C4_marker_stop_and_auto_continue jlNone [assistantChunkObj "x</complete>"] []
      (by decide)).1 ⟨assistantChunkObj "x</complete>", by simp, by decide⟩,
   (C4_marker_stop_and_auto_continue jlNone [assistantChunkObj "plain text"] []
      (by decide)).2.2 (by decide) (normalStream []) []⟩

/-- C6: within a single assistant chunk whose decoded text holds several closing tags,
the recorded tool follows the scan order ask, complete, web-browser-takeover: any text
with the ask tag records ask whatever else it holds (first conjunct; in particular a
text with both ask and complete records ask), a text without the ask tag but with the
complete tag records complete (second conjunct), and a text with only the
web-browser-takeover tag records it (third conjunct). -/
theorem C6_tie_break (jl : String → Option PyVal) (st : LoopState) (t : String) :
    (pyIn "</ask>" t = true →
        (processChunk jl st (assistantChunkObj t)).1.lastToolCall = some "ask")
    ∧ (pyIn "</ask>" t = false → pyIn "</complete>" t = true →
        (processChunk jl st (assistantChunkObj t)).1.lastToolCall = some "complete")
    ∧ (pyIn "</ask>" t = false → pyIn "</complete>" t = false →
        pyIn "</web-browser-takeover>" t = true →
        (processChunk jl st (assistantChunkObj t)).1.lastToolCall
          = some "web-browser-takeover") := by
  have herr : isErrorChunk (assistantChunkObj t) = false := rfl
  have hsc : chunkMarkerScan jl (assistantChunkObj t) = detectXmlTool t := rfl
  refine ⟨?_, ?_, ?_⟩
  · intro h
    have hd : chunkMarkerScan jl (assistantChunkObj t) = some "ask" := by
      rw [hsc]; simp [detectXmlTool, h]
    simp [processChunk, herr, hd]
  · intro h1 h2
    have hd : chunkMarkerScan jl (assistantChunkObj t) = some "complete" := by
      rw [hsc]; simp [detectXmlTool, h1, h2]
    simp [processChunk, herr, hd]
  · intro h1 h2 h3
    have hd : chunkMarkerScan jl (assistantChunkObj t) = some "web-browser-takeover" := by
      rw [hsc]; simp [detectXmlTool, h1, h2, h3]
    simp [processChunk, herr, hd]

theorem C6_tie_break_witness :
    ((processChunk jlNone initState
        (assistantChunkObj "a</ask>b</complete>c")).1.lastToolCall = some "ask")
    ∧ ((processChunk jlNone initState
        (assistantChunkObj "b</complete>c")).1.lastToolCall = some "complete") :=
  ⟨(C6_tie_break jlNone initState "a</ask>b</complete>c").1 (by decide),
   (C6_tie_break jlNone initState "b</complete>c").2.1 (by decide) (by decide)⟩

/-- C8: a decode failure on one assistant chunk's content is non-fatal: the chunk is
still forwarded unchanged and the attempt state is untouched (first conjunct), the rest
of the attempt is processed exactly as if nothing happened (second conjunct), and a run
whose only attempt streams just that chunk neither errors nor stops: the loop would go
on to another attempt (third conjunct). -/
theorem C8_decode_failure_nonfatal (jl : String → Option PyVal) (st : LoopState)
    (cs : List Chunk) (c : Chunk) (s : String)
    (h1 : c.type = some "assistant") (h2 : c.content = some (.str s)) (h3 : jl s = none) :
    processChunk jl st c = (st, [c])
    ∧ processChunks jl st (c :: cs)
        = ((processChunks jl st cs).1, c :: (processChunks jl st cs).2)
    ∧ runAgent jl (RunEnv.mk none true false [normalStream [c]])
        = ([.threadStart, .yieldC c], .needsMore) := by
  have herr : isErrorChunk c = false := by
    unfold isErrorChunk
    rw [h1]
    rfl
  have hscan : chunkMarkerScan jl c = none := by
    unfold chunkMarkerScan
    rw [h1, h2]
    simp [h3]
  have hpc : ∀ st2 : LoopState, processChunk jl st2 c = (st2, [c]) := by
    intro st2
    simp [processChunk, herr, hscan]
  refine ⟨hpc st, ?_, ?_⟩
  · simp [processChunks, hpc st]
  · have hone : processChunks jl initState [c] = (initState, [c]) := by
      simp [processChunks, hpc initState]
    rw [runAgent_noUser,
        loopRun_normal_cont jl [c] [] (by rw [hone]; rfl) (by rw [hone]; rfl)]
    simp [loopRun]

theorem C8_decode_failure_nonfatal_witness :
    processChunk jlNone initState (assistantChunkRaw "not json")
      = (initState, [assistantChunkRaw "not json"])
    ∧ processChunks jlNone initState [assistantChunkRaw "not json"]
        = ((processChunks jlNone initState []).1,
           assistantChunkRaw "not json" :: (processChunks jlNone initState []).2)
    ∧ runAgent jlNone (RunEnv.mk none true false [normalStream [assistantChunkRaw "not json"]])
        = ([.threadStart, .yieldC (assistantChunkRaw "not json")], .needsMore) :=
  C8_decode_failure_nonfatal jlNone initState [] (assistantChunkRaw "not json") "not json"
    rfl rfl rfl

/-- C9: within one attempt, when several chunks fire the marker scan, the last one wins:
if chunk `c` scans to tool `t` and every chunk after it scans to nothing, the attempt
ends with `last_tool_call = t`, whatever the earlier chunks recorded; the
ask-over-complete priority applies only inside one chunk's text. -/
theorem C9_last_marker_wins (jl : String → Option PyVal) (st : LoopState)
    (cs1 cs2 : List Chunk) (c : Chunk) (t : String)
    (h1 : chunkMarkerScan jl c = some t)
    (h2 : ∀ x ∈ cs2, chunkMarkerScan jl x = none) :
    (processChunks jl st (cs1 ++ c :: cs2)).1.lastToolCall = some t := by
  rw [processChunks_fst_lastToolCall, List.foldl_append, List.foldl_cons]
  have hc : updLtc jl (cs1.foldl (updLtc jl) st.lastToolCall) c = some t := by
    unfold updLtc
    rw [h1]
  rw [hc]
  exact foldl_updLtc_skip jl cs2 (some t) h2

theorem C9_last_marker_wins_witness :
    (processChunks jlNone initState
        [assistantChunkObj "x</ask>", assistantChunkObj "y</complete>"]).1.lastToolCall
      = some "complete" :=
  C9_last_marker_wins jlNone initState [assistantChunkObj "x</ask>"] []
    (assistantChunkObj "y</complete>") "complete" (by decide) (by simp)

/-- C10: a run invoked with `user_id = None` never invokes the billing check (first
conjunct), behaves identically whether or not the caller has credits (second conjunct),
and still starts a Model Session whenever an attempt result is available (third
conjunct). -/
theorem C10_no_user_skips_billing (jl : String → Option PyVal) (hc rapidK : Bool)
    (atts : List ThreadCall) (tc : ThreadCall) (rest : List ThreadCall) :
    countBillingChecks (runAgent jl (RunEnv.mk none hc rapidK atts)).1 = 0
    ∧ runAgent jl (RunEnv.mk none hc rapidK atts)
        = runAgent jl (RunEnv.mk none true rapidK atts)
    ∧ 1 ≤ countStarts (runAgent jl (RunEnv.mk none hc false (tc :: rest))).1 := by
  refine ⟨?_, rfl, ?_⟩
  · by_cases hr : rapidK = true
    · simp [runAgent, truthyStr, hr, countBillingChecks]
    · rw [Bool.not_eq_true] at hr
      simp [runAgent, truthyStr, hr, loopRun_no_billingChecks]
  · rw [runAgent_noUser]
    exact loopRun_cons_starts jl tc rest
